import Mathlib

set_option linter.unusedVariables false

/-!
Verification of the expression-evaluation core of the Leo compiler
(`src/compiler/src/expression/expression.rs`).

The core's functions (`evaluate_identifier`, `enforce_number_implicit`,
`enforce_expression_value`, `enforce_binary_expression`,
`enforce_function_call_expression`, `enforce_expression`) are translated
directly from the Rust source.  The collaborators the core calls
(value construction and type resolution, operator gadgets, the symbol
table, function-body enforcement, the constraint-system handle) are not
part of the repository sources; they are modelled from the specification
(sections 3, 4 and 6) and each such definition is marked
"Modelled from the spec".  Mutable state (`&mut self`, `&mut CS`) is
embedded as explicit state passing of an `EvalState` value.
-/

/-- Source span of an expression node (the fields the core reads:
`span.line` and `span.start`). -/
structure Span where
  line : Nat
  start : Nat
deriving DecidableEq, Repr

/-- An identifier token: a bare name plus its source span. -/
structure Identifier where
  name : String
  span : Span
deriving DecidableEq, Repr

/-- Sized integer types of the source language (width and signedness). -/
inductive IntegerType where
  | u8 | u16 | u32 | u64 | u128
  | i8 | i16 | i32 | i64 | i128
deriving DecidableEq, Repr

def IntegerType.bits : IntegerType → Nat
  | .u8 => 8 | .u16 => 16 | .u32 => 32 | .u64 => 64 | .u128 => 128
  | .i8 => 8 | .i16 => 16 | .i32 => 32 | .i64 => 64 | .i128 => 128

def IntegerType.signed : IntegerType → Bool
  | .u8 | .u16 | .u32 | .u64 | .u128 => false
  | .i8 | .i16 | .i32 | .i64 | .i128 => true

/-- Whether the integer `n` is representable in integer type `t`. -/
def IntegerType.inRange (t : IntegerType) (n : Int) : Bool :=
  if t.signed then decide (-(2 ^ (t.bits - 1) : Int) ≤ n ∧ n < (2 ^ (t.bits - 1) : Int))
  else decide (0 ≤ n ∧ n < (2 ^ t.bits : Int))

/-- The types the expected-type set may mention (`leo_types::Type`,
restricted to the scalar types the core inspects; the core itself only
ever tests membership of `Type::Address` and passes the set through). -/
inductive LeoType where
  | address
  | boolean
  | fieldType
  | group
  | integer (t : IntegerType)
deriving DecidableEq, Repr

/-- Decimal-digit accumulator for the modelled literal parsers. -/
def parseNatAux : List Char → Nat → Option Nat
  | [], acc => some acc
  | c :: cs, acc => if c.isDigit then parseNatAux cs (acc * 10 + (c.toNat - 48)) else none

/-- Modelled from the spec: decimal parse of a literal's text, the
validation step of the numeric value constructors. -/
def parseNat? (s : String) : Option Nat :=
  match s.data with
  | [] => none
  | cs => parseNatAux cs 0

/-- Modelled from the spec: signed decimal parse of a literal's text. -/
def parseInt? (s : String) : Option Int :=
  match s.data with
  | [] => none
  | c :: cs =>
    if c = Char.ofNat 45 then
      match cs with
      | [] => none
      | _ => (parseNatAux cs 0).map (fun n => -(n : Int))
    else (parseNatAux (c :: cs) 0).map (fun n => (n : Int))

/-- Lexicographic ordering of character lists, used by the modelled
address comparison. -/
def charListLt : List Char → List Char → Bool
  | [], [] => false
  | [], _ :: _ => true
  | _ :: _, [] => false
  | a :: as, b :: bs => if a < b then true else if b < a then false else charListLt as bs

/-- Error kinds of the core (`ExpressionError`), following the spec's
error taxonomy in section 7.  `wrapped` is the boxed inner error produced
at a call site (`ExpressionError::from(Box::new(error))`). -/
inductive ExpressionError where
  | undefinedIdentifier (name : String)
  | typeMismatch (span : Span)
  | notCallable (span : Span)
  | functionNoReturn (callee : String) (span : Span)
  | invalidLiteral (text : String) (span : Span)
  | wrapped (inner : ExpressionError)
deriving DecidableEq, Repr

mutual

/-- The resolved-value union (`ConstrainedValue`): primitive constants,
an address, composite arrays and circuit instances, a function reference,
a multi-value return aggregate, and the unresolved-literal placeholder. -/
inductive ConstrainedValue where
  | address (s : String)
  | boolean (b : Bool)
  | fieldElem (s : String)
  | group (s : String)
  | integer (t : IntegerType) (n : Int)
  | array (elems : List ConstrainedValue)
  | circuitInstance (name : String) (members : List ConstrainedValue)
  | functionValue (declScope : Option String) (f : FunctionDef)
  | ret (values : List ConstrainedValue)
  | unresolved (text : String)

/-- Modelled from the spec: a function reference as the call resolver
sees it (section 4.5 and 6).  The function-body enforcement collaborator
is opaque to the core, so the definition carries its observable
behaviour as data: the function's display name, the constraint variables
its body emits, the symbol-table bindings its body inserts (section 4.5
step 4: the callee evaluates and binds the arguments), and the outcome
of enforcing its body. -/
inductive FunctionDef where
  | mk (name : String) (emits : List String)
       (binds : List (String × ConstrainedValue))
       (result : Except ExpressionError ConstrainedValue)

end

def FunctionDef.get_name : FunctionDef → String
  | .mk n _ _ _ => n

def FunctionDef.emits : FunctionDef → List String
  | .mk _ e _ _ => e

def FunctionDef.binds : FunctionDef → List (String × ConstrainedValue)
  | .mk _ _ b _ => b

def FunctionDef.result : FunctionDef → Except ExpressionError ConstrainedValue
  | .mk _ _ _ r => r

/-- The concrete scalar type of a resolved value, if it has one.
Composite and not-yet-resolved values have none. -/
def ConstrainedValue.typeOf : ConstrainedValue → Option LeoType
  | .address _ => some .address
  | .boolean _ => some .boolean
  | .fieldElem _ => some .fieldType
  | .group _ => some .group
  | .integer t _ => some (.integer t)
  | _ => none

def ConstrainedValue.isReturn : ConstrainedValue → Bool
  | .ret _ => true
  | _ => false

def ConstrainedValue.isFunction : ConstrainedValue → Bool
  | .functionValue _ _ => true
  | _ => false

/-- Modelled from the spec: address-literal construction (`Address::new`),
which fails with a malformed-literal error when the text is not a
well-formed address (section 7; Scenario B shows the "aleo1..." form). -/
def Address.new (name : String) (span : Span) : Except ExpressionError String :=
  if "aleo1".data.isPrefixOf name.data then .ok name else .error (.invalidLiteral name span)

/-- Modelled from the spec: boolean-constant construction
(`new_bool_constant`), validating the literal's textual form. -/
def new_bool_constant (value : String) (span : Span) : Except ExpressionError Bool :=
  if value = "true" then .ok true
  else if value = "false" then .ok false
  else .error (.invalidLiteral value span)

/-- Modelled from the spec: field-constant construction
(`FieldType::constant`), validating the literal's textual form. -/
def FieldType.constant (value : String) (span : Span) :
    Except ExpressionError ConstrainedValue :=
  match parseNat? value with
  | some _ => .ok (.fieldElem value)
  | none => .error (.invalidLiteral value span)

/-- Modelled from the spec: group-constant construction (`G::constant`),
validating the literal's textual form. -/
def Group.constant (value : String) (span : Span) :
    Except ExpressionError ConstrainedValue :=
  match parseNat? value with
  | some _ => .ok (.group value)
  | none => .error (.invalidLiteral value span)

/-- Modelled from the spec: integer-constant construction
(`Integer::new_constant`), failing on malformed text or an out-of-range
value (section 7). -/
def Integer.new_constant (t : IntegerType) (value : String) (span : Span) :
    Except ExpressionError ConstrainedValue :=
  match parseInt? value with
  | some n => if t.inRange n then .ok (.integer t n) else .error (.invalidLiteral value span)
  | none => .error (.invalidLiteral value span)

/-- Modelled from the spec: the value constructor
`from_type(literal_text, type, span)` (section 6), converting a literal's
raw text into a concrete typed value and failing with a conversion error
on malformed text or out-of-range values (section 4.2). -/
def ConstrainedValue.from_type (value : String) (type_ : LeoType) (span : Span) :
    Except ExpressionError ConstrainedValue :=
  match type_ with
  | .address => (Address.new value span).map ConstrainedValue.address
  | .boolean => (new_bool_constant value span).map ConstrainedValue.boolean
  | .fieldType => FieldType.constant value span
  | .group => Group.constant value span
  | .integer t => Integer.new_constant t value span

/-- Modelled from the spec: `resolve_type(expected_types, span)`
(section 6).  An empty expected set accepts any type unchanged; an
unresolved literal converts now when exactly one type is expected and
stays deferred otherwise (section 4.2); a concrete scalar value must
have its type in a nonempty expected set; composite values are accepted
unchanged.  In-place mutation becomes returning the resolved value. -/
def ConstrainedValue.resolve_type (v : ConstrainedValue) (expected_types : List LeoType)
    (span : Span) : Except ExpressionError ConstrainedValue :=
  if expected_types.isEmpty then .ok v
  else
    match v with
    | .unresolved text =>
      match expected_types with
      | [type_] => ConstrainedValue.from_type text type_ span
      | _ => .ok v
    | _ =>
      match v.typeOf with
      | some t => if expected_types.contains t then .ok v else .error (.typeMismatch span)
      | none => .ok v

/-- Modelled from the spec: mutual unification
`resolve_types(other, expected_types, span)` (sections 4.3 and 6): equal
concrete types are accepted; an unresolved literal is coerced to the
other side's concrete type; two unresolved literals are resolved against
the expected-type set; mismatched concrete types are a type error. -/
def ConstrainedValue.resolve_types (l r : ConstrainedValue) (expected_types : List LeoType)
    (span : Span) : Except ExpressionError (ConstrainedValue × ConstrainedValue) :=
  match l.typeOf, r.typeOf with
  | some tl, some tr =>
    if tl = tr then .ok (l, r) else .error (.typeMismatch span)
  | some tl, none =>
    match r with
    | .unresolved text => (ConstrainedValue.from_type text tl span).map (fun r2 => (l, r2))
    | _ => .ok (l, r)
  | none, some tr =>
    match l with
    | .unresolved text => (ConstrainedValue.from_type text tr span).map (fun l2 => (l2, r))
    | _ => .ok (l, r)
  | none, none =>
    match l, r with
    | .unresolved t1, .unresolved t2 => do
      let l2 ← (ConstrainedValue.unresolved t1).resolve_type expected_types span
      let r2 ← (ConstrainedValue.unresolved t2).resolve_type expected_types span
      .ok (l2, r2)
    | _, _ => .ok (l, r)

/-- Modelled from the spec: `get_inner_mut` unwraps a mutable-reference
wrapper; the resolved-value union of section 3 has no such wrapper, so
this is the identity here. -/
def ConstrainedValue.get_inner_mut (v : ConstrainedValue) : ConstrainedValue := v

/-- Modelled from the spec: `extract_function(file_scope, span)`
(sections 4.5 and 6), extracting a function reference together with the
scope of its declaration (defaulting to the current file scope) and
failing with a not-callable error on any other value shape. -/
def ConstrainedValue.extract_function (v : ConstrainedValue) (file_scope : String)
    (span : Span) : Except ExpressionError (String × FunctionDef) :=
  match v with
  | .functionValue declScope f => .ok (declScope.getD file_scope, f)
  | _ => .error (.notCallable span)

/-- The scope-qualification rule `new_scope` from `crate::program`:
a qualified name is the outer scope, a separator, and the inner name. -/
def new_scope (outer inner : String) : String :=
  outer ++ "_" ++ inner

/-- The mutable evaluation state threaded through every enforcement
call: the program's symbol table (`ConstrainedProgram::get`) and the
constraint-system handle, modelled from the spec (sections 3 and 6) as
the current namespace path plus the append-only list of emitted
constraint variables, each recorded with its full namespace path. -/
structure EvalState where
  identifiers : List (String × ConstrainedValue)
  nsPath : List String
  vars : List (List String × String)

/-- Symbol-table lookup (`self.get`): first binding of the qualified
name, if any. -/
def EvalState.get (st : EvalState) (name : String) : Option ConstrainedValue :=
  match st.identifiers.find? (fun p => p.1 == name) with
  | some p => some p.2
  | none => none

/-- Modelled from the spec: `cs.ns(label)` opens a nested namespace that
scopes subsequently emitted variable names under `label` (section 6). -/
def EvalState.pushNs (st : EvalState) (label : String) : EvalState :=
  { st with nsPath := st.nsPath ++ [label] }

/-- Modelled from the spec: leaving a nested constraint-system
namespace restores the enclosing one. -/
def EvalState.popNs (st : EvalState) : EvalState :=
  { st with nsPath := st.nsPath.dropLast }

/-- Modelled from the spec: emitting one constraint variable records it
under the current namespace path (section 3: append-only sink). -/
def EvalState.emit (st : EvalState) (v : String) : EvalState :=
  { st with vars := st.vars ++ [(st.nsPath, v)] }

/-- The expression tree (`leo_types::Expression`), with exactly the
variants the dispatch core matches on: identifiers, literal constants,
the implicit numeric literal, arithmetic, boolean and relational binary
operators, logical negation, the conditional, arrays, circuits and
function calls. -/
inductive Expression where
  | identifier (id : Identifier)
  | address (s : String) (span : Span)
  | boolean (s : String) (span : Span)
  | fieldElem (s : String) (span : Span)
  | group (s : String) (span : Span)
  | implicit (s : String) (span : Span)
  | integer (t : IntegerType) (s : String) (span : Span)
  | add (left right : Expression) (span : Span)
  | sub (left right : Expression) (span : Span)
  | mul (left right : Expression) (span : Span)
  | div (left right : Expression) (span : Span)
  | pow (left right : Expression) (span : Span)
  | not (e : Expression) (span : Span)
  | or (left right : Expression) (span : Span)
  | and (left right : Expression) (span : Span)
  | eq (left right : Expression) (span : Span)
  | ge (left right : Expression) (span : Span)
  | gt (left right : Expression) (span : Span)
  | le (left right : Expression) (span : Span)
  | lt (left right : Expression) (span : Span)
  | ifElse (conditional first second : Expression) (span : Span)
  | array (elems : List Expression) (span : Span)
  | arrayAccess (arr index : Expression) (span : Span)
  | circuit (circuit_name : Identifier) (members : List (Identifier × Expression)) (span : Span)
  | circuitMemberAccess (circuit_variable : Expression) (circuit_member : Identifier) (span : Span)
  | circuitStaticFunctionAccess (circuit_identifier : Expression) (circuit_member : Identifier)
      (span : Span)
  | functionCall (function : Expression) (arguments : List Expression) (span : Span)

/-- Modelled from the spec: the display form of an expression
(`Expression::to_string`), used only inside the no-return-value error
message; an identifier displays as its bare name. -/
def Expression.to_string : Expression → String
  | .identifier id => id.name
  | _ => "<expression>"

/-- Modelled from the spec: the function-body enforcement collaborator
`enforce_function(namespaced_cs, declaration_scope, caller_scope,
function, argument_expressions)` (section 6).  Its observable behaviour
is the data carried by the function reference: the body first binds the
arguments — inserting its bindings into the symbol table, the insertion
that section 4.5 step 4 and section 6 assign to statement enforcement
inside the callee — then emits its constraint variables into the
namespaced handle and produces its stored outcome. -/
def enforce_function (st : EvalState) (outer_scope caller_scope : String)
    (function_call : FunctionDef) (arguments : List Expression) :
    Except ExpressionError ConstrainedValue × EvalState :=
  (function_call.result,
    function_call.emits.foldl EvalState.emit
      { st with identifiers := st.identifiers ++ function_call.binds })

/-- Structural equality of two scalar constants of the same type,
used by the modelled equality gadget. -/
def scalarEq : ConstrainedValue → ConstrainedValue → Bool
  | .address a, .address b => a == b
  | .boolean a, .boolean b => a == b
  | .fieldElem a, .fieldElem b => a == b
  | .group a, .group b => a == b
  | .integer _ a, .integer _ b => a == b
  | _, _ => false

/-- Strict ordering of two scalar constants of the same type, used by
the modelled comparison gadgets (integers and field/group constants
compare numerically, booleans with false below true, addresses
lexicographically). -/
def scalarLt : ConstrainedValue → ConstrainedValue → Bool
  | .integer _ a, .integer _ b => decide (a < b)
  | .fieldElem a, .fieldElem b => decide ((parseNat? a).getD 0 < (parseNat? b).getD 0)
  | .group a, .group b => decide ((parseNat? a).getD 0 < (parseNat? b).getD 0)
  | .boolean a, .boolean b => !a && b
  | .address a, .address b => charListLt a.data b.data
  | _, _ => false

/-- Modelled from the spec: the comparison gadgets are type-agnostic on
input and fixed-boolean on output; two operands of the same concrete
type always succeed and produce a boolean (sections 4.4 and 8).  The
result is computed by the supplied boolean comparison. -/
def relationalGadget (cmp : ConstrainedValue → ConstrainedValue → Bool)
    (left right : ConstrainedValue) (span : Span) :
    Except ExpressionError ConstrainedValue :=
  match left.typeOf, right.typeOf with
  | some tl, some tr =>
    if tl = tr then .ok (.boolean (cmp left right)) else .error (.typeMismatch span)
  | _, _ => .error (.typeMismatch span)

/-- Modelled from the spec: the equality gadget (`evaluate_eq_expression`). -/
def evaluate_eq_expression (left right : ConstrainedValue) (span : Span) :
    Except ExpressionError ConstrainedValue :=
  relationalGadget scalarEq left right span

/-- Modelled from the spec: the greater-or-equal gadget. -/
def evaluate_ge_expression (left right : ConstrainedValue) (span : Span) :
    Except ExpressionError ConstrainedValue :=
  relationalGadget (fun a b => !scalarLt a b) left right span

/-- Modelled from the spec: the greater-than gadget. -/
def evaluate_gt_expression (left right : ConstrainedValue) (span : Span) :
    Except ExpressionError ConstrainedValue :=
  relationalGadget (fun a b => scalarLt b a) left right span

/-- Modelled from the spec: the less-or-equal gadget. -/
def evaluate_le_expression (left right : ConstrainedValue) (span : Span) :
    Except ExpressionError ConstrainedValue :=
  relationalGadget (fun a b => !scalarLt b a) left right span

/-- Modelled from the spec: the less-than gadget. -/
def evaluate_lt_expression (left right : ConstrainedValue) (span : Span) :
    Except ExpressionError ConstrainedValue :=
  relationalGadget scalarLt left right span

/-- Modelled from the spec: an arithmetic gadget collaborator (section 6)
maps two type-resolved integer operands of one type to their result,
failing outside the representable range, and is a type error on any
other operand shapes. -/
def arithmeticGadget (op : Int → Int → Option Int)
    (left right : ConstrainedValue) (span : Span) :
    Except ExpressionError ConstrainedValue :=
  match left, right with
  | .integer t1 a, .integer t2 b =>
    if t1 = t2 then
      match op a b with
      | some c =>
        if t1.inRange c then .ok (.integer t1 c)
        else .error (.invalidLiteral "arithmetic overflow" span)
      | none => .error (.invalidLiteral "arithmetic failure" span)
    else .error (.typeMismatch span)
  | _, _ => .error (.typeMismatch span)

/-- Modelled from the spec: the addition gadget (`enforce_add_expression`). -/
def enforce_add_expression (left right : ConstrainedValue) (span : Span) :
    Except ExpressionError ConstrainedValue :=
  arithmeticGadget (fun a b => some (a + b)) left right span

/-- Modelled from the spec: the subtraction gadget (`enforce_sub_expression`). -/
def enforce_sub_expression (left right : ConstrainedValue) (span : Span) :
    Except ExpressionError ConstrainedValue :=
  arithmeticGadget (fun a b => some (a - b)) left right span

/-- Modelled from the spec: the multiplication gadget (`enforce_mul_expression`). -/
def enforce_mul_expression (left right : ConstrainedValue) (span : Span) :
    Except ExpressionError ConstrainedValue :=
  arithmeticGadget (fun a b => some (a * b)) left right span

/-- Modelled from the spec: the division gadget (`enforce_div_expression`),
failing on a zero divisor. -/
def enforce_div_expression (left right : ConstrainedValue) (span : Span) :
    Except ExpressionError ConstrainedValue :=
  arithmeticGadget (fun a b => if b = 0 then none else some (a / b)) left right span

/-- Modelled from the spec: the exponentiation gadget (`enforce_pow_expression`),
requiring a nonnegative exponent. -/
def enforce_pow_expression (left right : ConstrainedValue) (span : Span) :
    Except ExpressionError ConstrainedValue :=
  arithmeticGadget (fun a b => if b < 0 then none else some (a ^ b.toNat)) left right span

/-- Modelled from the spec: the negation gadget (`evaluate_not`),
defined on boolean operands only. -/
def evaluate_not (value : ConstrainedValue) (span : Span) :
    Except ExpressionError ConstrainedValue :=
  match value with
  | .boolean b => .ok (.boolean (!b))
  | _ => .error (.typeMismatch span)

/-- Modelled from the spec: the disjunction gadget (`enforce_or`),
defined on boolean operands only. -/
def enforce_or (left right : ConstrainedValue) (span : Span) :
    Except ExpressionError ConstrainedValue :=
  match left, right with
  | .boolean a, .boolean b => .ok (.boolean (a || b))
  | _, _ => .error (.typeMismatch span)

/-- Modelled from the spec: the conjunction gadget (`enforce_and`),
defined on boolean operands only. -/
def enforce_and (left right : ConstrainedValue) (span : Span) :
    Except ExpressionError ConstrainedValue :=
  match left, right with
  | .boolean a, .boolean b => .ok (.boolean (a && b))
  | _, _ => .error (.typeMismatch span)

/-- Modelled from the spec: the conditional-expression collaborator is
out of scope at this layer (section 1); only its interface shape — the
handle, both scope identifiers, the expected-type set, the three
unevaluated sub-expressions and the span — matters here, so it is a
deterministic opaque collaborator. -/
def enforce_conditional_expression (st : EvalState) (file_scope function_scope : String)
    (expected_types : List LeoType) (conditional first second : Expression) (span : Span) :
    Except ExpressionError ConstrainedValue × EvalState :=
  (.ok (.unresolved "conditional"), st)

/-- Modelled from the spec: the array-literal collaborator, out of scope
at this layer (section 1); a deterministic opaque collaborator with the
interface shape the dispatch core hands it. -/
def enforce_array_expression (st : EvalState) (file_scope function_scope : String)
    (expected_types : List LeoType) (elems : List Expression) (span : Span) :
    Except ExpressionError ConstrainedValue × EvalState :=
  (.ok (.array []), st)

/-- Modelled from the spec: the array-access collaborator, out of scope
at this layer (section 1); a deterministic opaque collaborator with the
interface shape the dispatch core hands it. -/
def enforce_array_access_expression (st : EvalState) (file_scope function_scope : String)
    (expected_types : List LeoType) (arr index : Expression) (span : Span) :
    Except ExpressionError ConstrainedValue × EvalState :=
  (.ok (.unresolved "array access"), st)

/-- Modelled from the spec: the circuit-literal collaborator (section 1
places its internals out of scope).  Note the dispatch core hands it no
expected-type set.  Modelled as looking the circuit's declaration up
under its file-scope-qualified name. -/
def enforce_circuit_expression (st : EvalState) (file_scope function_scope : String)
    (circuit_name : Identifier) (members : List (Identifier × Expression)) (span : Span) :
    Except ExpressionError ConstrainedValue × EvalState :=
  match st.get (new_scope file_scope circuit_name.name) with
  | some value => (.ok value, st)
  | none => (.error (.undefinedIdentifier circuit_name.name), st)

/-- Modelled from the spec: the circuit member-access collaborator, out
of scope at this layer (section 1); a deterministic opaque collaborator
with the interface shape the dispatch core hands it. -/
def enforce_circuit_access_expression (st : EvalState) (file_scope function_scope : String)
    (expected_types : List LeoType) (circuit_variable : Expression)
    (circuit_member : Identifier) (span : Span) :
    Except ExpressionError ConstrainedValue × EvalState :=
  (.ok (.unresolved "circuit member"), st)

/-- Modelled from the spec: the circuit static-access collaborator, out
of scope at this layer (section 1); a deterministic opaque collaborator
with the interface shape the dispatch core hands it. -/
def enforce_circuit_static_access_expression (st : EvalState) (file_scope function_scope : String)
    (expected_types : List LeoType) (circuit_identifier : Expression)
    (circuit_member : Identifier) (span : Span) :
    Except ExpressionError ConstrainedValue × EvalState :=
  (.ok (.unresolved "circuit static member"), st)

/-- Enforce a variable expression by getting the resolved value
(`evaluate_identifier`): try the function-scope-qualified key, then the
file-scope-qualified key, then the bare name; if all three miss and an
address type is expected, construct an address from the bare name and
return it directly; otherwise fail with an undefined-identifier error;
any found value is type-resolved against the expected types. -/
def evaluate_identifier (st : EvalState) (file_scope function_scope : String)
    (expected_types : List LeoType) (unresolved_identifier : Identifier) :
    Except ExpressionError ConstrainedValue × EvalState :=
  let variable_name := new_scope function_scope unresolved_identifier.name
  let identifier_name := new_scope file_scope unresolved_identifier.name
  match st.get variable_name with
  | some value => (value.resolve_type expected_types unresolved_identifier.span, st)
  | none =>
    match st.get identifier_name with
    | some value => (value.resolve_type expected_types unresolved_identifier.span, st)
    | none =>
      match st.get unresolved_identifier.name with
      | some value => (value.resolve_type expected_types unresolved_identifier.span, st)
      | none =>
        if expected_types.contains LeoType.address then
          ((Address.new unresolved_identifier.name unresolved_identifier.span).map
            ConstrainedValue.address, st)
        else
          (.error (.undefinedIdentifier unresolved_identifier.name), st)

/-- `enforce_number_implicit`: with exactly one expected type the
literal converts to that concrete type now; with zero or several
expected types it stays an unresolved placeholder. -/
def enforce_number_implicit (expected_types : List LeoType) (value : String) (span : Span) :
    Except ExpressionError ConstrainedValue :=
  match expected_types with
  | [type_] => ConstrainedValue.from_type value type_ span
  | _ => .ok (.unresolved value)

/-- The unique constraint-namespace label a function call opens:
the callee's display name and the call site's line and column. -/
def name_unique (fname : String) (span : Span) : String :=
  "function call " ++ fname ++ " " ++ toString span.line ++ ":" ++ toString span.start

/-- Any span has positive size, which the termination measures of the
mutual dispatch core rely on. -/
theorem Span.one_le_sizeOf (sp : Span) : 1 ≤ sizeOf sp := by
  cases sp; simp; omega

mutual

/-- `enforce_function_call_expression`: enforce the callee expression,
extract the function reference and its declaration scope, invoke the
function body inside one fresh constraint-system namespace labelled by
the callee's display name and the call site's position, and normalize
the outcome: a one-element return aggregate unwraps, any other aggregate
is returned as-is, any other value shape is a no-return-value error, and
an inner failure comes back wrapped. -/
def enforce_function_call_expression (st : EvalState) (file_scope function_scope : String)
    (expected_types : List LeoType) (function : Expression) (arguments : List Expression)
    (span : Span) : Except ExpressionError ConstrainedValue × EvalState :=
  match enforce_expression st file_scope function_scope expected_types function with
  | (.error e, st1) => (.error e, st1)
  | (.ok function_value, st1) =>
    match function_value.extract_function file_scope span with
    | .error e => (.error e, st1)
    | .ok (outer_scope, function_call) =>
      let st2 := st1.pushNs (name_unique function_call.get_name span)
      match enforce_function st2 outer_scope function_scope function_call arguments with
      | (.ok (.ret return_values), st3) =>
        match return_values with
        | [single] => (.ok single, st3.popNs)
        | _ => (.ok (.ret return_values), st3.popNs)
      | (.ok _, st3) => (.error (.functionNoReturn function.to_string span), st3.popNs)
      | (.error error, st3) => (.error (.wrapped error), st3.popNs)
termination_by 3 * sizeOf function + 2
decreasing_by all_goals (cases span; simp_wf <;> omega)

/-- `enforce_expression_value`: enforce a branch of a binary expression
and resolve its type individually against the expected-type set. -/
def enforce_expression_value (st : EvalState) (file_scope function_scope : String)
    (expected_types : List LeoType) (expression : Expression) (span : Span) :
    Except ExpressionError ConstrainedValue × EvalState :=
  match enforce_expression st file_scope function_scope expected_types expression with
  | (.error e, st1) => (.error e, st1)
  | (.ok branch, st1) =>
    ((branch.get_inner_mut).resolve_type expected_types span, st1)
termination_by 3 * sizeOf expression + 1
decreasing_by all_goals (cases span; simp_wf <;> omega)

/-- `enforce_binary_expression`: enforce the left operand, then the
right operand, each against the same expected-type set and scope
context, then unify the two resolved values. -/
def enforce_binary_expression (st : EvalState) (file_scope function_scope : String)
    (expected_types : List LeoType) (left right : Expression) (span : Span) :
    Except ExpressionError (ConstrainedValue × ConstrainedValue) × EvalState :=
  match enforce_expression_value st file_scope function_scope expected_types left span with
  | (.error e, st1) => (.error e, st1)
  | (.ok resolved_left, st1) =>
    match enforce_expression_value st1 file_scope function_scope expected_types right span with
    | (.error e, st2) => (.error e, st2)
    | (.ok resolved_right, st2) =>
      (resolved_left.resolve_types resolved_right expected_types span, st2)
termination_by 3 * (sizeOf left + sizeOf right) + 3
decreasing_by all_goals (cases span; simp_wf <;> omega)

/-- `enforce_expression`: the dispatch core, one arm per expression
variant, exactly as in the source. -/
def enforce_expression (st : EvalState) (file_scope function_scope : String)
    (expected_types : List LeoType) (expression : Expression) :
    Except ExpressionError ConstrainedValue × EvalState :=
  match expression with
  | .identifier unresolved_variable =>
    evaluate_identifier st file_scope function_scope expected_types unresolved_variable
  | .address a span => ((Address.new a span).map ConstrainedValue.address, st)
  | .boolean b span => ((new_bool_constant b span).map ConstrainedValue.boolean, st)
  | .fieldElem f span => (FieldType.constant f span, st)
  | .group g span => (Group.constant g span, st)
  | .implicit value span => (enforce_number_implicit expected_types value span, st)
  | .integer type_ n span => (Integer.new_constant type_ n span, st)
  | .add left right span =>
    match enforce_binary_expression st file_scope function_scope expected_types
        left right span with
    | (.error e, st1) => (.error e, st1)
    | (.ok (resolved_left, resolved_right), st1) =>
      (enforce_add_expression resolved_left resolved_right span, st1)
  | .sub left right span =>
    match enforce_binary_expression st file_scope function_scope expected_types
        left right span with
    | (.error e, st1) => (.error e, st1)
    | (.ok (resolved_left, resolved_right), st1) =>
      (enforce_sub_expression resolved_left resolved_right span, st1)
  | .mul left right span =>
    match enforce_binary_expression st file_scope function_scope expected_types
        left right span with
    | (.error e, st1) => (.error e, st1)
    | (.ok (resolved_left, resolved_right), st1) =>
      (enforce_mul_expression resolved_left resolved_right span, st1)
  | .div left right span =>
    match enforce_binary_expression st file_scope function_scope expected_types
        left right span with
    | (.error e, st1) => (.error e, st1)
    | (.ok (resolved_left, resolved_right), st1) =>
      (enforce_div_expression resolved_left resolved_right span, st1)
  | .pow left right span =>
    match enforce_binary_expression st file_scope function_scope expected_types
        left right span with
    | (.error e, st1) => (.error e, st1)
    | (.ok (resolved_left, resolved_right), st1) =>
      (enforce_pow_expression resolved_left resolved_right span, st1)
  | .not inner span =>
    match enforce_expression st file_scope function_scope expected_types inner with
    | (.error e, st1) => (.error e, st1)
    | (.ok value, st1) => (evaluate_not value span, st1)
  | .or left right span =>
    match enforce_binary_expression st file_scope function_scope expected_types
        left right span with
    | (.error e, st1) => (.error e, st1)
    | (.ok (resolved_left, resolved_right), st1) =>
      (enforce_or resolved_left resolved_right span, st1)
  | .and left right span =>
    match enforce_binary_expression st file_scope function_scope expected_types
        left right span with
    | (.error e, st1) => (.error e, st1)
    | (.ok (resolved_left, resolved_right), st1) =>
      (enforce_and resolved_left resolved_right span, st1)
  | .eq left right span =>
    match enforce_binary_expression st file_scope function_scope [] left right span with
    | (.error e, st1) => (.error e, st1)
    | (.ok (resolved_left, resolved_right), st1) =>
      (evaluate_eq_expression resolved_left resolved_right span, st1)
  | .ge left right span =>
    match enforce_binary_expression st file_scope function_scope [] left right span with
    | (.error e, st1) => (.error e, st1)
    | (.ok (resolved_left, resolved_right), st1) =>
      (evaluate_ge_expression resolved_left resolved_right span, st1)
  | .gt left right span =>
    match enforce_binary_expression st file_scope function_scope [] left right span with
    | (.error e, st1) => (.error e, st1)
    | (.ok (resolved_left, resolved_right), st1) =>
      (evaluate_gt_expression resolved_left resolved_right span, st1)
  | .le left right span =>
    match enforce_binary_expression st file_scope function_scope [] left right span with
    | (.error e, st1) => (.error e, st1)
    | (.ok (resolved_left, resolved_right), st1) =>
      (evaluate_le_expression resolved_left resolved_right span, st1)
  | .lt left right span =>
    match enforce_binary_expression st file_scope function_scope [] left right span with
    | (.error e, st1) => (.error e, st1)
    | (.ok (resolved_left, resolved_right), st1) =>
      (evaluate_lt_expression resolved_left resolved_right span, st1)
  | .ifElse conditional first second span =>
    enforce_conditional_expression st file_scope function_scope expected_types
      conditional first second span
  | .array elems span =>
    enforce_array_expression st file_scope function_scope expected_types elems span
  | .arrayAccess arr index span =>
    enforce_array_access_expression st file_scope function_scope expected_types arr index span
  | .circuit circuit_name members span =>
    enforce_circuit_expression st file_scope function_scope circuit_name members span
  | .circuitMemberAccess circuit_variable circuit_member span =>
    enforce_circuit_access_expression st file_scope function_scope expected_types
      circuit_variable circuit_member span
  | .circuitStaticFunctionAccess circuit_identifier circuit_member span =>
    enforce_circuit_static_access_expression st file_scope function_scope expected_types
      circuit_identifier circuit_member span
  | .functionCall function arguments span =>
    enforce_function_call_expression st file_scope function_scope expected_types
      function arguments span
termination_by 3 * sizeOf expression
decreasing_by all_goals (cases span; simp_wf <;> omega)

end

/-- The twelve binary-operator arms of the dispatch core, used to state
properties uniformly over them. -/
inductive BinaryOp where
  | add | sub | mul | div | pow | or | and | eq | ge | gt | le | lt
deriving DecidableEq, Repr

/-- The expression constructor of a binary-operator arm. -/
def BinaryOp.mk_expr : BinaryOp → Expression → Expression → Span → Expression
  | .add => Expression.add
  | .sub => Expression.sub
  | .mul => Expression.mul
  | .div => Expression.div
  | .pow => Expression.pow
  | .or => Expression.or
  | .and => Expression.and
  | .eq => Expression.eq
  | .ge => Expression.ge
  | .gt => Expression.gt
  | .le => Expression.le
  | .lt => Expression.lt

/-- Whether the arm is one of the five relational operators. -/
def BinaryOp.relational : BinaryOp → Bool
  | .eq | .ge | .gt | .le | .lt => true
  | _ => false

/-- The expected-type set the dispatch core hands the binary-operand
resolver for this arm: the caller's set, except that the five relational
arms pass the empty set. -/
def BinaryOp.operand_types (op : BinaryOp) (expected_types : List LeoType) : List LeoType :=
  if op.relational then [] else expected_types

/-- The gadget collaborator the dispatch core applies to the two
resolved operands of this arm. -/
def BinaryOp.gadget : BinaryOp → ConstrainedValue → ConstrainedValue → Span →
    Except ExpressionError ConstrainedValue
  | .add => enforce_add_expression
  | .sub => enforce_sub_expression
  | .mul => enforce_mul_expression
  | .div => enforce_div_expression
  | .pow => enforce_pow_expression
  | .or => enforce_or
  | .and => enforce_and
  | .eq => evaluate_eq_expression
  | .ge => evaluate_ge_expression
  | .gt => evaluate_gt_expression
  | .le => evaluate_le_expression
  | .lt => evaluate_lt_expression

/-- Characterization of every binary-operator arm of the dispatch core:
resolve both operands through the binary-operand resolver — against the
caller's expected types, or the empty set for the relational arms — and
apply the arm's gadget to the resolved pair. -/
theorem enforce_expression_binary_arm (op : BinaryOp) (st : EvalState)
    (file_scope function_scope : String) (expected_types : List LeoType)
    (left right : Expression) (span : Span) :
    enforce_expression st file_scope function_scope expected_types
        (op.mk_expr left right span) =
      match enforce_binary_expression st file_scope function_scope
          (op.operand_types expected_types) left right span with
      | (.error e, st1) => (.error e, st1)
      | (.ok (resolved_left, resolved_right), st1) =>
        (op.gadget resolved_left resolved_right span, st1) := by
  cases op <;>
    simp only [BinaryOp.mk_expr, BinaryOp.operand_types, BinaryOp.relational, BinaryOp.gadget,
      enforce_expression, if_true, if_false, Bool.false_eq_true, ite_false, ite_true]

/-- Identifier resolution never touches the evaluation state: the
returned state is the input state itself. -/
theorem evaluate_identifier_state (st : EvalState) (file_scope function_scope : String)
    (expected_types : List LeoType) (id : Identifier) :
    (evaluate_identifier st file_scope function_scope expected_types id).2 = st := by
  simp only [evaluate_identifier]
  cases h1 : st.get (new_scope function_scope id.name) with
  | some value => rfl
  | none =>
    cases h2 : st.get (new_scope file_scope id.name) with
    | some value => rfl
    | none =>
      cases h3 : st.get id.name with
      | some value => rfl
      | none => dsimp only; split <;> rfl

/-- Emitting a constraint variable leaves the symbol table alone. -/
theorem emit_identifiers (st : EvalState) (v : String) :
    (st.emit v).identifiers = st.identifiers := rfl

/-- A whole fold of emissions leaves the symbol table alone. -/
theorem foldl_emit_identifiers (l : List String) (st : EvalState) :
    (l.foldl EvalState.emit st).identifiers = st.identifiers := by
  induction l generalizing st with
  | nil => rfl
  | cons a l ih => simpa [List.foldl_cons] using ih (st.emit a)

/-- The modelled function-body enforcement grows the symbol table by
exactly the bindings the body inserts (section 4.5 step 4). -/
theorem enforce_function_identifiers (st : EvalState) (outer_scope caller_scope : String)
    (f : FunctionDef) (args : List Expression) :
    ((enforce_function st outer_scope caller_scope f args).2).identifiers =
      st.identifiers ++ f.binds := by
  simpa [enforce_function] using foldl_emit_identifiers f.emits
    { st with identifiers := st.identifiers ++ f.binds }

mutual

/-- Whether an expression contains no function-call subexpression. -/
def callFree : Expression → Bool
  | .identifier _ => true
  | .address _ _ => true
  | .boolean _ _ => true
  | .fieldElem _ _ => true
  | .group _ _ => true
  | .implicit _ _ => true
  | .integer _ _ _ => true
  | .add left right _ => callFree left && callFree right
  | .sub left right _ => callFree left && callFree right
  | .mul left right _ => callFree left && callFree right
  | .div left right _ => callFree left && callFree right
  | .pow left right _ => callFree left && callFree right
  | .not inner _ => callFree inner
  | .or left right _ => callFree left && callFree right
  | .and left right _ => callFree left && callFree right
  | .eq left right _ => callFree left && callFree right
  | .ge left right _ => callFree left && callFree right
  | .gt left right _ => callFree left && callFree right
  | .le left right _ => callFree left && callFree right
  | .lt left right _ => callFree left && callFree right
  | .ifElse conditional first second _ =>
    callFree conditional && callFree first && callFree second
  | .array elems _ => callFreeList elems
  | .arrayAccess arr index _ => callFree arr && callFree index
  | .circuit _ members _ => callFreeMembers members
  | .circuitMemberAccess obj _ _ => callFree obj
  | .circuitStaticFunctionAccess obj _ _ => callFree obj
  | .functionCall _ _ _ => false

/-- Whether every expression of a list is free of function calls. -/
def callFreeList : List Expression → Bool
  | [] => true
  | e :: es => callFree e && callFreeList es

/-- Whether every member initializer is free of function calls. -/
def callFreeMembers : List (Identifier × Expression) → Bool
  | [] => true
  | (_, e) :: ms => callFree e && callFreeMembers ms

end


mutual

/-- One binary-operand branch of a call-free expression leaves the
symbol table unchanged. -/
theorem enforce_expression_value_identifiers (st : EvalState)
    (file_scope function_scope : String) (expected_types : List LeoType)
    (expression : Expression) (span : Span) (hcf : callFree expression = true) :
    ((enforce_expression_value st file_scope function_scope expected_types
        expression span).2).identifiers = st.identifiers := by
  have ih := enforce_expression_identifiers st file_scope function_scope
    expected_types expression hcf
  unfold enforce_expression_value
  cases h : enforce_expression st file_scope function_scope expected_types expression with
  | mk res st1 =>
    rw [h] at ih
    cases res <;> simpa using ih
termination_by 3 * sizeOf expression + 1
decreasing_by all_goals (cases span; simp_wf <;> omega)

/-- The binary-operand resolver on two call-free operands leaves the
symbol table unchanged. -/
theorem enforce_binary_expression_identifiers (st : EvalState)
    (file_scope function_scope : String) (expected_types : List LeoType)
    (left right : Expression) (span : Span)
    (hl : callFree left = true) (hr : callFree right = true) :
    ((enforce_binary_expression st file_scope function_scope expected_types
        left right span).2).identifiers = st.identifiers := by
  have ihl := enforce_expression_value_identifiers st file_scope function_scope
    expected_types left span hl
  unfold enforce_binary_expression
  cases h : enforce_expression_value st file_scope function_scope expected_types left span with
  | mk res st1 =>
    rw [h] at ihl
    cases res with
    | error e => simpa using ihl
    | ok lv =>
      simp only at ihl
      dsimp only
      have ihr := enforce_expression_value_identifiers st1 file_scope function_scope
        expected_types right span hr
      cases h2 : enforce_expression_value st1 file_scope function_scope
          expected_types right span with
      | mk res2 st2 =>
        rw [h2] at ihr
        simp only at ihr
        cases res2 <;> simpa using ihr.trans ihl
termination_by 3 * (sizeOf left + sizeOf right) + 3
decreasing_by all_goals (cases span; simp_wf <;> omega)

/-- Enforcing a call-free expression leaves the symbol table
unchanged. -/
theorem enforce_expression_identifiers (st : EvalState)
    (file_scope function_scope : String) (expected_types : List LeoType)
    (expression : Expression) :
    callFree expression = true →
    ((enforce_expression st file_scope function_scope expected_types
        expression).2).identifiers = st.identifiers := by
  cases expression with
  | identifier id =>
    intro hcf
    simp only [enforce_expression]
    rw [evaluate_identifier_state]
  | address a span => intro hcf; simp [enforce_expression]
  | boolean b span => intro hcf; simp [enforce_expression]
  | fieldElem f span => intro hcf; simp [enforce_expression]
  | group g span => intro hcf; simp [enforce_expression]
  | implicit v span => intro hcf; simp [enforce_expression]
  | integer t n span => intro hcf; simp [enforce_expression]
  | add left right span =>
    intro hcf
    simp only [callFree, Bool.and_eq_true] at hcf
    have ih := enforce_binary_expression_identifiers st file_scope function_scope
      expected_types left right span hcf.1 hcf.2
    simp only [enforce_expression]
    cases h : enforce_binary_expression st file_scope function_scope expected_types
        left right span with
    | mk res st1 =>
      rw [h] at ih
      cases res with
      | error e => simpa using ih
      | ok p => cases p; simpa using ih
  | sub left right span =>
    intro hcf
    simp only [callFree, Bool.and_eq_true] at hcf
    have ih := enforce_binary_expression_identifiers st file_scope function_scope
      expected_types left right span hcf.1 hcf.2
    simp only [enforce_expression]
    cases h : enforce_binary_expression st file_scope function_scope expected_types
        left right span with
    | mk res st1 =>
      rw [h] at ih
      cases res with
      | error e => simpa using ih
      | ok p => cases p; simpa using ih
  | mul left right span =>
    intro hcf
    simp only [callFree, Bool.and_eq_true] at hcf
    have ih := enforce_binary_expression_identifiers st file_scope function_scope
      expected_types left right span hcf.1 hcf.2
    simp only [enforce_expression]
    cases h : enforce_binary_expression st file_scope function_scope expected_types
        left right span with
    | mk res st1 =>
      rw [h] at ih
      cases res with
      | error e => simpa using ih
      | ok p => cases p; simpa using ih
  | div left right span =>
    intro hcf
    simp only [callFree, Bool.and_eq_true] at hcf
    have ih := enforce_binary_expression_identifiers st file_scope function_scope
      expected_types left right span hcf.1 hcf.2
    simp only [enforce_expression]
    cases h : enforce_binary_expression st file_scope function_scope expected_types
        left right span with
    | mk res st1 =>
      rw [h] at ih
      cases res with
      | error e => simpa using ih
      | ok p => cases p; simpa using ih
  | pow left right span =>
    intro hcf
    simp only [callFree, Bool.and_eq_true] at hcf
    have ih := enforce_binary_expression_identifiers st file_scope function_scope
      expected_types left right span hcf.1 hcf.2
    simp only [enforce_expression]
    cases h : enforce_binary_expression st file_scope function_scope expected_types
        left right span with
    | mk res st1 =>
      rw [h] at ih
      cases res with
      | error e => simpa using ih
      | ok p => cases p; simpa using ih
  | not inner span =>
    intro hcf
    simp only [callFree] at hcf
    have ih := enforce_expression_identifiers st file_scope function_scope
      expected_types inner hcf
    simp only [enforce_expression]
    cases h : enforce_expression st file_scope function_scope expected_types inner with
    | mk res st1 =>
      rw [h] at ih
      cases res <;> simpa using ih
  | or left right span =>
    intro hcf
    simp only [callFree, Bool.and_eq_true] at hcf
    have ih := enforce_binary_expression_identifiers st file_scope function_scope
      expected_types left right span hcf.1 hcf.2
    simp only [enforce_expression]
    cases h : enforce_binary_expression st file_scope function_scope expected_types
        left right span with
    | mk res st1 =>
      rw [h] at ih
      cases res with
      | error e => simpa using ih
      | ok p => cases p; simpa using ih
  | and left right span =>
    intro hcf
    simp only [callFree, Bool.and_eq_true] at hcf
    have ih := enforce_binary_expression_identifiers st file_scope function_scope
      expected_types left right span hcf.1 hcf.2
    simp only [enforce_expression]
    cases h : enforce_binary_expression st file_scope function_scope expected_types
        left right span with
    | mk res st1 =>
      rw [h] at ih
      cases res with
      | error e => simpa using ih
      | ok p => cases p; simpa using ih
  | eq left right span =>
    intro hcf
    simp only [callFree, Bool.and_eq_true] at hcf
    have ih := enforce_binary_expression_identifiers st file_scope function_scope
      [] left right span hcf.1 hcf.2
    simp only [enforce_expression]
    cases h : enforce_binary_expression st file_scope function_scope []
        left right span with
    | mk res st1 =>
      rw [h] at ih
      cases res with
      | error e => simpa using ih
      | ok p => cases p; simpa using ih
  | ge left right span =>
    intro hcf
    simp only [callFree, Bool.and_eq_true] at hcf
    have ih := enforce_binary_expression_identifiers st file_scope function_scope
      [] left right span hcf.1 hcf.2
    simp only [enforce_expression]
    cases h : enforce_binary_expression st file_scope function_scope []
        left right span with
    | mk res st1 =>
      rw [h] at ih
      cases res with
      | error e => simpa using ih
      | ok p => cases p; simpa using ih
  | gt left right span =>
    intro hcf
    simp only [callFree, Bool.and_eq_true] at hcf
    have ih := enforce_binary_expression_identifiers st file_scope function_scope
      [] left right span hcf.1 hcf.2
    simp only [enforce_expression]
    cases h : enforce_binary_expression st file_scope function_scope []
        left right span with
    | mk res st1 =>
      rw [h] at ih
      cases res with
      | error e => simpa using ih
      | ok p => cases p; simpa using ih
  | le left right span =>
    intro hcf
    simp only [callFree, Bool.and_eq_true] at hcf
    have ih := enforce_binary_expression_identifiers st file_scope function_scope
      [] left right span hcf.1 hcf.2
    simp only [enforce_expression]
    cases h : enforce_binary_expression st file_scope function_scope []
        left right span with
    | mk res st1 =>
      rw [h] at ih
      cases res with
      | error e => simpa using ih
      | ok p => cases p; simpa using ih
  | lt left right span =>
    intro hcf
    simp only [callFree, Bool.and_eq_true] at hcf
    have ih := enforce_binary_expression_identifiers st file_scope function_scope
      [] left right span hcf.1 hcf.2
    simp only [enforce_expression]
    cases h : enforce_binary_expression st file_scope function_scope []
        left right span with
    | mk res st1 =>
      rw [h] at ih
      cases res with
      | error e => simpa using ih
      | ok p => cases p; simpa using ih
  | ifElse conditional first second span =>
    intro hcf
    simp [enforce_expression, enforce_conditional_expression]
  | array elems span => intro hcf; simp [enforce_expression, enforce_array_expression]
  | arrayAccess arr index span =>
    intro hcf
    simp [enforce_expression, enforce_array_access_expression]
  | circuit circuit_name members span =>
    intro hcf
    simp only [enforce_expression, enforce_circuit_expression]
    cases st.get (new_scope file_scope circuit_name.name) <;> rfl
  | circuitMemberAccess circuit_variable circuit_member span =>
    intro hcf
    simp [enforce_expression, enforce_circuit_access_expression]
  | circuitStaticFunctionAccess circuit_identifier circuit_member span =>
    intro hcf
    simp [enforce_expression, enforce_circuit_static_access_expression]
  | functionCall function arguments span => intro hcf; simp [callFree] at hcf
termination_by 3 * sizeOf expression
decreasing_by all_goals (cases span; simp_wf <;> omega)

end

def natChars (n : Nat) : List Char :=
  if n = 0 then ['0'] else ((Nat.digits 10 n).map Nat.digitChar).reverse

theorem toDigitsCore_eq_natChars :
    ∀ (fuel n : Nat) (rest : List Char), n < fuel →
      Nat.toDigitsCore 10 fuel n rest = natChars n ++ rest := by
  intro fuel
  induction fuel with
  | zero => intro n rest h; omega
  | succ fuel ih =>
    intro n rest h
    by_cases h0 : n / 10 = 0
    · have hn10 : n < 10 := by omega
      simp only [Nat.toDigitsCore, h0, if_true]
      by_cases hn : n = 0
      · subst hn
        simp only [natChars, if_pos rfl]
        show Nat.digitChar (0 % 10) :: rest = ['0'] ++ rest
        rfl
      · have hdig : Nat.digits 10 n = [n % 10] := by
          rw [Nat.digits_def' (by norm_num) (Nat.pos_of_ne_zero hn), h0]
          simp
        simp [natChars, hn, hdig]
    · have hn : n ≠ 0 := by
        intro hz; subst hz; simp at h0
      have hstep : n / 10 < fuel := by
        have := Nat.div_lt_self (Nat.pos_of_ne_zero hn) (by norm_num : 1 < 10)
        omega
      simp only [Nat.toDigitsCore, h0, if_false]
      rw [ih (n / 10) (Nat.digitChar (n % 10) :: rest) hstep]
      have hdig : Nat.digits 10 n = n % 10 :: Nat.digits 10 (n / 10) :=
        Nat.digits_def' (by norm_num) (Nat.pos_of_ne_zero hn)
      simp [natChars, hn, h0, hdig, List.append_assoc]

theorem repr_data_eq_natChars (n : Nat) : (Nat.repr n).data = natChars n := by
  show (Nat.toDigits 10 n).asString.data = natChars n
  rw [Nat.toDigits, toDigitsCore_eq_natChars (n + 1) n [] (Nat.lt_succ_self n)]
  simp [List.asString]

theorem digitChar_inj (d1 d2 : Nat) (h1 : d1 < 10) (h2 : d2 < 10)
    (h : Nat.digitChar d1 = Nat.digitChar d2) : d1 = d2 := by
  interval_cases d1 <;> interval_cases d2 <;> first | rfl | (exact absurd h (by decide))

theorem digitChar_ne_colon (d : Nat) (h : d < 10) : Nat.digitChar d ≠ ':' := by
  interval_cases d <;> decide

theorem map_digitChar_inj :
    ∀ (l1 l2 : List Nat), (∀ d ∈ l1, d < 10) → (∀ d ∈ l2, d < 10) →
      l1.map Nat.digitChar = l2.map Nat.digitChar → l1 = l2 := by
  intro l1
  induction l1 with
  | nil =>
    intro l2 _ _ h
    cases l2 with
    | nil => rfl
    | cons b bs => simp at h
  | cons a as ih =>
    intro l2 h1 h2 h
    cases l2 with
    | nil => simp at h
    | cons b bs =>
      simp only [List.map_cons, List.cons.injEq] at h
      have hab : a = b := digitChar_inj a b (h1 a (by simp)) (h2 b (by simp)) h.1
      subst hab
      have : as = bs := ih bs (fun d hd => h1 d (by simp [hd])) (fun d hd => h2 d (by simp [hd])) h.2
      rw [this]

theorem natChars_inj (m n : Nat) (h : natChars m = natChars n) : m = n := by
  by_cases hm : m = 0 <;> by_cases hn : n = 0
  · omega
  · exfalso
    subst hm
    simp only [natChars, if_true, hn, if_false] at h
    have hmap : (Nat.digits 10 n).map Nat.digitChar = ['0'] := by
      have := congrArg List.reverse h
      simpa using this.symm
    have hdig : Nat.digits 10 n = [0] := by
      have h10 : (0 : Nat) < 10 := by norm_num
      cases hd : Nat.digits 10 n with
      | nil => rw [hd] at hmap; simp at hmap
      | cons d tl =>
        rw [hd] at hmap
        cases tl with
        | nil =>
          simp only [List.map_cons, List.map_nil, List.cons.injEq] at hmap
          have hdlt : d < 10 := Nat.digits_lt_base (by norm_num) (by rw [hd]; simp)
          have : d = 0 := digitChar_inj d 0 hdlt (by norm_num) (by simpa using hmap.1)
          rw [this]
        | cons d2 tl2 => simp at hmap
    have := Nat.ofDigits_digits 10 n
    rw [hdig] at this
    simp [Nat.ofDigits] at this
    omega
  · exfalso
    subst hn
    simp only [natChars, if_true, hm, if_false] at h
    have hmap : (Nat.digits 10 m).map Nat.digitChar = ['0'] := by
      have := congrArg List.reverse h
      simpa using this
    have hdig : Nat.digits 10 m = [0] := by
      cases hd : Nat.digits 10 m with
      | nil => rw [hd] at hmap; simp at hmap
      | cons d tl =>
        rw [hd] at hmap
        cases tl with
        | nil =>
          simp only [List.map_cons, List.map_nil, List.cons.injEq] at hmap
          have hdlt : d < 10 := Nat.digits_lt_base (by norm_num) (by rw [hd]; simp)
          have : d = 0 := digitChar_inj d 0 hdlt (by norm_num) (by simpa using hmap.1)
          rw [this]
        | cons d2 tl2 => simp at hmap
    have := Nat.ofDigits_digits 10 m
    rw [hdig] at this
    simp [Nat.ofDigits] at this
    omega
  · simp only [natChars, hm, hn, if_false] at h
    have hrev := congrArg List.reverse h
    simp only [List.reverse_reverse] at hrev
    have hdig := map_digitChar_inj (Nat.digits 10 m) (Nat.digits 10 n)
      (fun d hd => Nat.digits_lt_base (by norm_num) hd)
      (fun d hd => Nat.digits_lt_base (by norm_num) hd) hrev
    have h1 := Nat.ofDigits_digits 10 m
    have h2 := Nat.ofDigits_digits 10 n
    rw [hdig] at h1
    omega

theorem repr_inj (m n : Nat) (h : Nat.repr m = Nat.repr n) : m = n := by
  apply natChars_inj
  rw [← repr_data_eq_natChars, ← repr_data_eq_natChars, h]

theorem colon_not_mem_natChars (n : Nat) : (':' ∈ natChars n) → False := by
  intro hmem
  by_cases hn : n = 0
  · subst hn; simp [natChars] at hmem
  · simp only [natChars, hn, if_false, List.mem_reverse, List.mem_map] at hmem
    obtain ⟨d, hd, hdc⟩ := hmem
    exact digitChar_ne_colon d (Nat.digits_lt_base (by norm_num) hd) hdc

theorem toString_nat_eq_repr (n : Nat) : toString n = Nat.repr n := rfl

theorem colon_split :
    ∀ (x1 x2 y1 y2 : List Char), (':' ∈ x1 → False) → (':' ∈ x2 → False) →
      x1 ++ ':' :: y1 = x2 ++ ':' :: y2 → x1 = x2 ∧ y1 = y2 := by
  intro x1
  induction x1 with
  | nil =>
    intro x2 y1 y2 _ hc2 h
    cases x2 with
    | nil => simpa using h
    | cons b bs =>
      exfalso
      simp only [List.nil_append, List.cons_append, List.cons.injEq] at h
      exact hc2 (by simp [← h.1])
  | cons a as ih =>
    intro x2 y1 y2 hc1 hc2 h
    cases x2 with
    | nil =>
      exfalso
      simp only [List.nil_append, List.cons_append, List.cons.injEq] at h
      exact hc1 (by simp [h.1])
    | cons b bs =>
      simp only [List.cons_append, List.cons.injEq] at h
      obtain ⟨hab, hrest⟩ := h
      have := ih bs y1 y2 (fun hm => hc1 (by simp [hm])) (fun hm => hc2 (by simp [hm])) hrest
      exact ⟨by rw [hab, this.1], this.2⟩

theorem name_unique_inj (fname : String) (sp1 sp2 : Span)
    (h : name_unique fname sp1 = name_unique fname sp2) : sp1 = sp2 := by
  unfold name_unique at h
  rw [toString_nat_eq_repr, toString_nat_eq_repr, toString_nat_eq_repr,
    toString_nat_eq_repr] at h
  have hd := congrArg String.data h
  simp only [String.data_append, List.append_assoc] at hd
  have hd2 := List.append_cancel_left hd
  have hd3 := List.append_cancel_left hd2
  have hd4 := List.append_cancel_left hd3
  simp only [List.cons_append, List.nil_append] at hd4
  have hsplit := colon_split (Nat.repr sp1.line).data (Nat.repr sp2.line).data
    (Nat.repr sp1.start).data (Nat.repr sp2.start).data
    (by rw [repr_data_eq_natChars]; exact colon_not_mem_natChars sp1.line)
    (by rw [repr_data_eq_natChars]; exact colon_not_mem_natChars sp2.line)
    hd4
  have hline : sp1.line = sp2.line := by
    apply natChars_inj
    rw [← repr_data_eq_natChars, ← repr_data_eq_natChars]
    exact hsplit.1
  have hstart : sp1.start = sp2.start := by
    apply natChars_inj
    rw [← repr_data_eq_natChars, ← repr_data_eq_natChars]
    exact hsplit.2
  cases sp1
  cases sp2
  simp only [Span.mk.injEq]
  exact ⟨hline, hstart⟩

/-- Unfolding characterization of the binary-operand resolver: left
branch first, then the right branch in the state the left produced,
then mutual unification. -/
theorem enforce_binary_expression_eq (st : EvalState) (file_scope function_scope : String)
    (expected_types : List LeoType) (left right : Expression) (span : Span) :
    enforce_binary_expression st file_scope function_scope expected_types left right span =
      match enforce_expression_value st file_scope function_scope expected_types left span with
      | (.error e, st1) => (.error e, st1)
      | (.ok resolved_left, st1) =>
        match enforce_expression_value st1 file_scope function_scope expected_types
            right span with
        | (.error e, st2) => (.error e, st2)
        | (.ok resolved_right, st2) =>
          (resolved_left.resolve_types resolved_right expected_types span, st2) := by
  unfold enforce_binary_expression
  rfl

/-- Mutual unification accepts two values of one concrete scalar type
unchanged. -/
theorem resolve_types_same_type (l r : ConstrainedValue) (expected_types : List LeoType)
    (span : Span) (t : LeoType) (h1 : l.typeOf = some t) (h2 : r.typeOf = some t) :
    l.resolve_types r expected_types span = .ok (l, r) := by
  unfold ConstrainedValue.resolve_types
  rw [h1, h2]
  simp

/-- A modelled comparison gadget on two values of one concrete scalar
type produces the boolean the comparison computes. -/
theorem relationalGadget_same_type (cmp : ConstrainedValue → ConstrainedValue → Bool)
    (l r : ConstrainedValue) (span : Span) (t : LeoType)
    (h1 : l.typeOf = some t) (h2 : r.typeOf = some t) :
    relationalGadget cmp l r span = .ok (.boolean (cmp l r)) := by
  unfold relationalGadget
  rw [h1, h2]
  simp

/-- A successful literal conversion yields a value of the requested
type. -/
theorem from_type_typeOf (s : String) (t : LeoType) (sp : Span) (v : ConstrainedValue)
    (h : ConstrainedValue.from_type s t sp = .ok v) : v.typeOf = some t := by
  cases t <;>
    simp only [ConstrainedValue.from_type, Address.new, new_bool_constant,
      FieldType.constant, Group.constant, Integer.new_constant] at h <;>
    (repeat' split at h) <;>
    simp_all [Except.map] <;>
    subst v <;>
    simp [ConstrainedValue.typeOf]

/-- Mutual unification coerces an unresolved right operand to the left
operand's concrete type. -/
theorem resolve_types_coerce_right (l : ConstrainedValue) (s : String)
    (expected_types : List LeoType) (span : Span) (t : LeoType) (rv : ConstrainedValue)
    (hl : l.typeOf = some t) (hf : ConstrainedValue.from_type s t span = .ok rv) :
    l.resolve_types (.unresolved s) expected_types span = .ok (l, rv) := by
  unfold ConstrainedValue.resolve_types
  rw [hl]
  simp only [ConstrainedValue.typeOf]
  rw [hf]
  rfl

/-- Mutual unification coerces an unresolved left operand to the right
operand's concrete type. -/
theorem resolve_types_coerce_left (r : ConstrainedValue) (s : String)
    (expected_types : List LeoType) (span : Span) (t : LeoType) (lv : ConstrainedValue)
    (hr : r.typeOf = some t) (hf : ConstrainedValue.from_type s t span = .ok lv) :
    (ConstrainedValue.unresolved s).resolve_types r expected_types span = .ok (lv, r) := by
  unfold ConstrainedValue.resolve_types
  rw [hr]
  simp only [ConstrainedValue.typeOf]
  rw [hf]
  rfl

/-- Extracting a function from any non-function value is the
not-callable error. -/
theorem extract_function_not_callable (v : ConstrainedValue) (file_scope : String)
    (span : Span) (h : v.isFunction = false) :
    v.extract_function file_scope span = .error (.notCallable span) := by
  cases v <;> simp_all [ConstrainedValue.isFunction, ConstrainedValue.extract_function]

/-- Characterization of a fold of emissions: the namespace path and the
symbol table are untouched and every variable is recorded under the
current namespace path. -/
theorem foldl_emit_vars (l : List String) (st : EvalState) :
    l.foldl EvalState.emit st =
      { identifiers := st.identifiers, nsPath := st.nsPath,
        vars := st.vars ++ l.map (fun v => (st.nsPath, v)) } := by
  induction l generalizing st with
  | nil => simp
  | cons a tl ih =>
    rw [List.foldl_cons, ih]
    simp [EvalState.emit, List.append_assoc]

/-- Claim C1: for every identifier, file scope, function scope and
expected-type set, `evaluate_identifier` resolves the name by trying, in
this exact order, (1) the function-scope-qualified key, (2) the
file-scope-qualified key, (3) the bare name, and (4) — only when all
three lookups fail and the expected-type set contains the address
type — construction of an address value from the bare name; when all
four tiers are unavailable it returns an UndefinedIdentifier error.  In
particular, a name bound simultaneously at function-local and file
scope always resolves to the function-local binding. -/
theorem evaluate_identifier_lookup_order (st : EvalState)
    (file_scope function_scope : String) (expected_types : List LeoType)
    (id : Identifier) :
    (∀ v, st.get (new_scope function_scope id.name) = some v →
      evaluate_identifier st file_scope function_scope expected_types id =
        (v.resolve_type expected_types id.span, st)) ∧
    (st.get (new_scope function_scope id.name) = none →
      ∀ v, st.get (new_scope file_scope id.name) = some v →
        evaluate_identifier st file_scope function_scope expected_types id =
          (v.resolve_type expected_types id.span, st)) ∧
    (st.get (new_scope function_scope id.name) = none →
      st.get (new_scope file_scope id.name) = none →
      ∀ v, st.get id.name = some v →
        evaluate_identifier st file_scope function_scope expected_types id =
          (v.resolve_type expected_types id.span, st)) ∧
    (st.get (new_scope function_scope id.name) = none →
      st.get (new_scope file_scope id.name) = none →
      st.get id.name = none →
      expected_types.contains LeoType.address = true →
      evaluate_identifier st file_scope function_scope expected_types id =
        ((Address.new id.name id.span).map ConstrainedValue.address, st)) ∧
    (st.get (new_scope function_scope id.name) = none →
      st.get (new_scope file_scope id.name) = none →
      st.get id.name = none →
      expected_types.contains LeoType.address = false →
      evaluate_identifier st file_scope function_scope expected_types id =
        (.error (.undefinedIdentifier id.name), st)) := by
  refine ⟨?_, ?_, ?_, ?_, ?_⟩
  · intro v hv
    simp [evaluate_identifier, hv]
  · intro h1 v hv
    simp [evaluate_identifier, h1, hv]
  · intro h1 h2 v hv
    simp [evaluate_identifier, h1, h2, hv]
  · intro h1 h2 h3 hc
    have hc2 : LeoType.address ∈ expected_types := by simpa using hc
    simp [evaluate_identifier, h1, h2, h3, hc2]
  · intro h1 h2 h3 hc
    have hc2 : LeoType.address ∉ expected_types := by simpa using hc
    simp [evaluate_identifier, h1, h2, h3, hc2]

/-- The concrete state used by witnesses: a name bound both at function
and at file scope. -/
def stShadow : EvalState :=
  { identifiers := [("main_x", .integer .u8 5), ("file_x", .integer .u8 7)]
    nsPath := [], vars := [] }

/-- Witness for the lookup-order theorem: with `x` bound to 5 in the
function scope and to 7 in the file scope, resolution returns the
function-local 5. -/
theorem evaluate_identifier_lookup_order_witness :
    evaluate_identifier stShadow "file" "main" [] ⟨"x", ⟨1, 2⟩⟩ =
      (.ok (.integer .u8 5), stShadow) := by
  have h := (evaluate_identifier_lookup_order stShadow "file" "main" [] ⟨"x", ⟨1, 2⟩⟩).1
    (.integer .u8 5) (by rfl)
  rw [h]
  rfl

/-- Claim C9: when `evaluate_identifier` falls through to the
address-literal fallback, the constructed address is returned
immediately without the type-resolution routine, whereas a value found
by any of the three lookups is type-resolved against the expected types
before being returned. -/
theorem address_fallback_skips_resolution (st : EvalState)
    (file_scope function_scope : String) (expected_types : List LeoType)
    (id : Identifier) :
    (st.get (new_scope function_scope id.name) = none →
      st.get (new_scope file_scope id.name) = none →
      st.get id.name = none →
      expected_types.contains LeoType.address = true →
      evaluate_identifier st file_scope function_scope expected_types id =
        ((Address.new id.name id.span).map ConstrainedValue.address, st)) ∧
    (∀ v, st.get (new_scope function_scope id.name) = some v →
      evaluate_identifier st file_scope function_scope expected_types id =
        (v.resolve_type expected_types id.span, st)) ∧
    (st.get (new_scope function_scope id.name) = none →
      ∀ v, st.get (new_scope file_scope id.name) = some v →
        evaluate_identifier st file_scope function_scope expected_types id =
          (v.resolve_type expected_types id.span, st)) ∧
    (st.get (new_scope function_scope id.name) = none →
      st.get (new_scope file_scope id.name) = none →
      ∀ v, st.get id.name = some v →
        evaluate_identifier st file_scope function_scope expected_types id =
          (v.resolve_type expected_types id.span, st)) := by
  refine ⟨?_, ?_, ?_, ?_⟩
  · intro h1 h2 h3 hc
    have hc2 : LeoType.address ∈ expected_types := by simpa using hc
    simp [evaluate_identifier, h1, h2, h3, hc2]
  · intro v hv
    simp [evaluate_identifier, hv]
  · intro h1 v hv
    simp [evaluate_identifier, h1, hv]
  · intro h1 h2 v hv
    simp [evaluate_identifier, h1, h2, hv]

/-- The empty evaluation state used by witnesses. -/
def stEmpty : EvalState := { identifiers := [], nsPath := [], vars := [] }

/-- Witness for the address-fallback theorem: an unbound name with an
expected address type becomes an address value built from the name. -/
theorem address_fallback_skips_resolution_witness :
    evaluate_identifier stEmpty "file" "main" [LeoType.address] ⟨"aleo1abc", ⟨1, 2⟩⟩ =
      (.ok (.address "aleo1abc"), stEmpty) := by
  have h := (address_fallback_skips_resolution stEmpty "file" "main" [LeoType.address]
    ⟨"aleo1abc", ⟨1, 2⟩⟩).1 (by rfl) (by rfl) (by rfl) (by rfl)
  rw [h]
  rfl

/-- Claim C4: an implicit numeric literal with exactly one expected
type converts to that concrete type immediately — the conversion fails
on malformed or out-of-range text — while zero or two or more expected
types defer the literal as an unresolved placeholder, never an error
and never an arbitrary pick. -/
theorem number_implicit_resolution :
    (∀ (type_ : LeoType) (value : String) (span : Span),
      enforce_number_implicit [type_] value span =
        ConstrainedValue.from_type value type_ span) ∧
    (∀ (t : IntegerType) (value : String) (span : Span),
      parseInt? value = none →
      enforce_number_implicit [LeoType.integer t] value span =
        .error (.invalidLiteral value span)) ∧
    (∀ (t : IntegerType) (value : String) (n : Int) (span : Span),
      parseInt? value = some n → t.inRange n = false →
      enforce_number_implicit [LeoType.integer t] value span =
        .error (.invalidLiteral value span)) ∧
    (∀ (expected_types : List LeoType) (value : String) (span : Span),
      expected_types.length ≠ 1 →
      enforce_number_implicit expected_types value span = .ok (.unresolved value)) := by
  refine ⟨?_, ?_, ?_, ?_⟩
  · intro type_ value span
    rfl
  · intro t value span hp
    simp [enforce_number_implicit, ConstrainedValue.from_type, Integer.new_constant, hp]
  · intro t value n span hp hr
    simp [enforce_number_implicit, ConstrainedValue.from_type, Integer.new_constant, hp, hr]
  · intro expected_types value span hlen
    cases expected_types with
    | nil => rfl
    | cons a tl =>
      cases tl with
      | nil => simp at hlen
      | cons b tl2 => rfl

/-- Witness for lazy literal resolution: two candidate expected types
leave the literal unresolved. -/
theorem number_implicit_resolution_witness :
    enforce_number_implicit [LeoType.integer .u8, LeoType.fieldType] "1" ⟨1, 1⟩ =
      .ok (.unresolved "1") :=
  number_implicit_resolution.2.2.2 [LeoType.integer .u8, LeoType.fieldType] "1" ⟨1, 1⟩
    (by decide)

/-- The function used by the symbol-table counterexample: its body
binds one argument into the symbol table (section 4.5 step 4). -/
def hFn : FunctionDef := .mk "h" [] [("main_h_a", .integer .u8 1)] (.ok (.ret [.boolean true]))

/-- The state for the symbol-table counterexample, binding `h` in the
function scope. -/
def stCall : EvalState :=
  { identifiers := [("main_h", .functionValue none hFn)], nsPath := [], vars := [] }

/-- Counterexample to claim C8 as stated: enforcing the function-call
expression `h()` changes the symbol table — the callee's body inserts
its argument binding, so the table after enforcement differs from the
table before. -/
theorem symbol_table_changed_by_call :
    ((enforce_expression stCall "file" "main" []
        (.functionCall (.identifier ⟨"h", ⟨5, 1⟩⟩) [] ⟨5, 1⟩)).2).identifiers ≠
      stCall.identifiers := by
  have hcomp : ((enforce_expression stCall "file" "main" []
      (.functionCall (.identifier ⟨"h", ⟨5, 1⟩⟩) [] ⟨5, 1⟩)).2).identifiers =
      [("main_h", .functionValue none hFn), ("main_h_a", .integer .u8 1)] := by
    simp [enforce_expression, enforce_function_call_expression]
    rfl
  rw [hcomp]
  intro h
  have hlen := congrArg List.length h
  simp [stCall] at hlen

/-- Claim C8 (amended): identifier resolution only reads the symbol
table via get — the state it returns is its input state — so the symbol
table is unchanged after enforcing any expression that contains no
function call, whether enforcement succeeds or fails; a function-call
expression can change the table, but only through the bindings the
called function's body inserts. -/
theorem symbol_table_read_only_core (st : EvalState)
    (file_scope function_scope : String) (expected_types : List LeoType) :
    (∀ id, (evaluate_identifier st file_scope function_scope expected_types id).2 = st) ∧
    (∀ expression, callFree expression = true →
      ((enforce_expression st file_scope function_scope expected_types
          expression).2).identifiers = st.identifiers) :=
  ⟨fun id => evaluate_identifier_state st file_scope function_scope expected_types id,
   fun expression hcf => enforce_expression_identifiers st file_scope function_scope
     expected_types expression hcf⟩

/-- Witness for the amended symbol-table claim: enforcing the call-free
`x + 3` leaves the table untouched. -/
theorem symbol_table_read_only_core_witness :
    ((enforce_expression stShadow "file" "main" []
        (.add (.identifier ⟨"x", ⟨1, 1⟩⟩) (.implicit "3" ⟨1, 5⟩) ⟨1, 3⟩)).2).identifiers =
      stShadow.identifiers :=
  (symbol_table_read_only_core stShadow "file" "main" []).2
    (.add (.identifier ⟨"x", ⟨1, 1⟩⟩) (.implicit "3" ⟨1, 5⟩) ⟨1, 3⟩) (by rfl)

/-- Claim C10: the dispatch arm for circuit literals hands the
collaborator no expected-type set, so evaluating the same circuit
literal in the same state under any two expected-type sets gives
identical results. -/
theorem circuit_literal_expected_types_independent (st : EvalState)
    (file_scope function_scope : String) (expected_types1 expected_types2 : List LeoType)
    (circuit_name : Identifier) (members : List (Identifier × Expression)) (span : Span) :
    enforce_expression st file_scope function_scope expected_types1
        (.circuit circuit_name members span) =
      enforce_expression st file_scope function_scope expected_types2
        (.circuit circuit_name members span) := by
  simp [enforce_expression]

/-- Every relational arm's gadget is a comparison gadget. -/
theorem relational_gadget_shape (op : BinaryOp) (hrel : op.relational = true) :
    ∃ cmp, op.gadget = relationalGadget cmp := by
  cases op <;> simp_all [BinaryOp.relational] <;> first
  | exact ⟨scalarEq, rfl⟩
  | exact ⟨fun a b => !scalarLt a b, rfl⟩
  | exact ⟨fun a b => scalarLt b a, rfl⟩
  | exact ⟨fun a b => !scalarLt b a, rfl⟩
  | exact ⟨scalarLt, rfl⟩

/-- Claim C3: every relational arm (eq, ge, gt, le, lt) resolves both
operands with the empty expected-type set, never the caller's set — so
the result is independent of the surrounding expected-type context —
and two operands of the same concrete type always succeed and produce a
boolean value. -/
theorem relational_type_agnostic (op : BinaryOp) (hrel : op.relational = true) :
    (∀ (st : EvalState) (file_scope function_scope : String)
        (expected_types : List LeoType) (left right : Expression) (span : Span),
      enforce_expression st file_scope function_scope expected_types
          (op.mk_expr left right span) =
        enforce_expression st file_scope function_scope []
          (op.mk_expr left right span)) ∧
    (∀ (st st1 st2 : EvalState) (file_scope function_scope : String)
        (expected_types : List LeoType) (left right : Expression) (span : Span)
        (lv rv : ConstrainedValue) (t : LeoType),
      enforce_expression_value st file_scope function_scope [] left span =
        (.ok lv, st1) →
      enforce_expression_value st1 file_scope function_scope [] right span =
        (.ok rv, st2) →
      lv.typeOf = some t → rv.typeOf = some t →
      ∃ b, enforce_expression st file_scope function_scope expected_types
          (op.mk_expr left right span) = (.ok (.boolean b), st2)) := by
  constructor
  · intro st fs fn ets l r sp
    rw [enforce_expression_binary_arm, enforce_expression_binary_arm]
    simp [BinaryOp.operand_types, hrel]
  · intro st st1 st2 fs fn ets l r sp lv rv t h1 h2 ht1 ht2
    obtain ⟨cmp, hg⟩ := relational_gadget_shape op hrel
    rw [enforce_expression_binary_arm]
    simp only [BinaryOp.operand_types, hrel, if_true]
    rw [enforce_binary_expression_eq, h1]
    dsimp only
    rw [h2]
    dsimp only
    rw [resolve_types_same_type lv rv [] sp t ht1 ht2]
    dsimp only
    rw [hg, relationalGadget_same_type cmp lv rv sp t ht1 ht2]
    exact ⟨cmp lv rv, rfl⟩

/-- Witness for relational type-agnosticism: `1 == 2` on u8 literals
succeeds with a boolean even under an unrelated expected-type set. -/
theorem relational_type_agnostic_witness :
    ∃ b, enforce_expression stEmpty "file" "main" [LeoType.group]
        (.eq (.integer .u8 "1" ⟨2, 1⟩) (.integer .u8 "2" ⟨2, 5⟩) ⟨2, 3⟩) =
      (.ok (.boolean b), stEmpty) := by
  have h := (relational_type_agnostic .eq rfl).2 stEmpty stEmpty stEmpty "file" "main"
    [LeoType.group] (.integer .u8 "1" ⟨2, 1⟩) (.integer .u8 "2" ⟨2, 5⟩) ⟨2, 3⟩
    (.integer .u8 1) (.integer .u8 2) (.integer .u8)
    (by simp [enforce_expression_value, enforce_expression]; rfl)
    (by simp [enforce_expression_value, enforce_expression]; rfl)
    rfl rfl
  exact h

/-- Claim C5: the binary-operand resolver first fully enforces the left
operand, then the right operand in the state the left produced, both
against the same expected-type set and scope context, and only then
unifies the pair; when one operand is concrete and the other a
compatible unresolved literal, both returned operands carry the
concrete operand's type. -/
theorem binary_expression_order_unification :
    (∀ (st : EvalState) (file_scope function_scope : String)
        (expected_types : List LeoType) (left right : Expression) (span : Span),
      enforce_binary_expression st file_scope function_scope expected_types
          left right span =
        match enforce_expression_value st file_scope function_scope expected_types
            left span with
        | (.error e, st1) => (.error e, st1)
        | (.ok resolved_left, st1) =>
          match enforce_expression_value st1 file_scope function_scope expected_types
              right span with
          | (.error e, st2) => (.error e, st2)
          | (.ok resolved_right, st2) =>
            (resolved_left.resolve_types resolved_right expected_types span, st2)) ∧
    (∀ (st st1 st2 : EvalState) (file_scope function_scope : String)
        (expected_types : List LeoType) (left right : Expression) (span : Span)
        (lv : ConstrainedValue) (s : String) (t : LeoType) (rv : ConstrainedValue),
      enforce_expression_value st file_scope function_scope expected_types left span =
        (.ok lv, st1) →
      enforce_expression_value st1 file_scope function_scope expected_types right span =
        (.ok (.unresolved s), st2) →
      lv.typeOf = some t →
      ConstrainedValue.from_type s t span = .ok rv →
      enforce_binary_expression st file_scope function_scope expected_types
          left right span = (.ok (lv, rv), st2) ∧
        lv.typeOf = some t ∧ rv.typeOf = some t) ∧
    (∀ (st st1 st2 : EvalState) (file_scope function_scope : String)
        (expected_types : List LeoType) (left right : Expression) (span : Span)
        (s : String) (rv : ConstrainedValue) (t : LeoType) (lv : ConstrainedValue),
      enforce_expression_value st file_scope function_scope expected_types left span =
        (.ok (.unresolved s), st1) →
      enforce_expression_value st1 file_scope function_scope expected_types right span =
        (.ok rv, st2) →
      rv.typeOf = some t →
      ConstrainedValue.from_type s t span = .ok lv →
      enforce_binary_expression st file_scope function_scope expected_types
          left right span = (.ok (lv, rv), st2) ∧
        lv.typeOf = some t ∧ rv.typeOf = some t) := by
  refine ⟨?_, ?_, ?_⟩
  · intro st fs fn ets l r sp
    exact enforce_binary_expression_eq st fs fn ets l r sp
  · intro st st1 st2 fs fn ets l r sp lv s t rv h1 h2 ht hf
    rw [enforce_binary_expression_eq, h1]
    dsimp only
    rw [h2]
    dsimp only
    rw [resolve_types_coerce_right lv s ets sp t rv ht hf]
    exact ⟨rfl, ht, from_type_typeOf s t sp rv hf⟩
  · intro st st1 st2 fs fn ets l r sp s rv t lv h1 h2 ht hf
    rw [enforce_binary_expression_eq, h1]
    dsimp only
    rw [h2]
    dsimp only
    rw [resolve_types_coerce_left rv s ets sp t lv ht hf]
    exact ⟨rfl, from_type_typeOf s t sp lv hf, ht⟩

/-- Witness for binary unification: `x + 3` with `x` a concrete u8
gives both operands the u8 type. -/
theorem binary_expression_order_unification_witness :
    enforce_binary_expression stShadow "file" "main" []
        (.identifier ⟨"x", ⟨1, 1⟩⟩) (.implicit "3" ⟨1, 5⟩) ⟨1, 3⟩ =
      (.ok (.integer .u8 5, .integer .u8 3), stShadow) := by
  have h := (binary_expression_order_unification.2.1 stShadow stShadow stShadow
    "file" "main" [] (.identifier ⟨"x", ⟨1, 1⟩⟩) (.implicit "3" ⟨1, 5⟩) ⟨1, 3⟩
    (.integer .u8 5) "3" (.integer .u8) (.integer .u8 3)
    (by simp [enforce_expression_value, enforce_expression]; rfl)
    (by simp [enforce_expression_value, enforce_expression]; rfl)
    rfl rfl)
  exact h.1

/-- Claim C7: every dispatch branch that recurses into a sub-expression
or operand resolution propagates a failure immediately and unchanged,
with no recovery and no further evaluation (the returned state is the
state at the failure); a failing callee expression propagates its error
unchanged, while an error raised inside a called function's body is
wrapped, preserving the original cause while attributing the failure to
the call site. -/
theorem expression_error_propagation :
    (∀ (op : BinaryOp) (st : EvalState) (file_scope function_scope : String)
        (expected_types : List LeoType) (left right : Expression) (span : Span)
        (e : ExpressionError) (st1 : EvalState),
      enforce_expression_value st file_scope function_scope
          (op.operand_types expected_types) left span = (.error e, st1) →
      enforce_expression st file_scope function_scope expected_types
          (op.mk_expr left right span) = (.error e, st1)) ∧
    (∀ (op : BinaryOp) (st : EvalState) (file_scope function_scope : String)
        (expected_types : List LeoType) (left right : Expression) (span : Span)
        (lv : ConstrainedValue) (e : ExpressionError) (st1 st2 : EvalState),
      enforce_expression_value st file_scope function_scope
          (op.operand_types expected_types) left span = (.ok lv, st1) →
      enforce_expression_value st1 file_scope function_scope
          (op.operand_types expected_types) right span = (.error e, st2) →
      enforce_expression st file_scope function_scope expected_types
          (op.mk_expr left right span) = (.error e, st2)) ∧
    (∀ (st : EvalState) (file_scope function_scope : String)
        (expected_types : List LeoType) (inner : Expression) (span : Span)
        (e : ExpressionError) (st1 : EvalState),
      enforce_expression st file_scope function_scope expected_types inner =
        (.error e, st1) →
      enforce_expression st file_scope function_scope expected_types
          (.not inner span) = (.error e, st1)) ∧
    (∀ (st : EvalState) (file_scope function_scope : String)
        (expected_types : List LeoType) (function : Expression)
        (arguments : List Expression) (span : Span) (e : ExpressionError)
        (st1 : EvalState),
      enforce_expression st file_scope function_scope expected_types function =
        (.error e, st1) →
      enforce_expression st file_scope function_scope expected_types
          (.functionCall function arguments span) = (.error e, st1)) ∧
    (∀ (st : EvalState) (file_scope function_scope : String)
        (expected_types : List LeoType) (function : Expression)
        (arguments : List Expression) (span : Span) (declScope : Option String)
        (fd : FunctionDef) (st1 : EvalState) (e : ExpressionError),
      enforce_expression st file_scope function_scope expected_types function =
        (.ok (.functionValue declScope fd), st1) →
      fd.result = .error e →
      (enforce_expression st file_scope function_scope expected_types
          (.functionCall function arguments span)).1 = .error (.wrapped e)) := by
  refine ⟨?_, ?_, ?_, ?_, ?_⟩
  · intro op st fs fn ets l r sp e st1 h
    rw [enforce_expression_binary_arm, enforce_binary_expression_eq, h]
  · intro op st fs fn ets l r sp lv e st1 st2 h1 h2
    rw [enforce_expression_binary_arm, enforce_binary_expression_eq, h1]
    dsimp only
    rw [h2]
  · intro st fs fn ets inner sp e st1 h
    simp only [enforce_expression]
    rw [h]
  · intro st fs fn ets function arguments sp e st1 h
    simp only [enforce_expression]
    unfold enforce_function_call_expression
    rw [h]
  · intro st fs fn ets function arguments sp declScope fd st1 e h hres
    simp only [enforce_expression]
    unfold enforce_function_call_expression
    rw [h]
    simp only [ConstrainedValue.extract_function, enforce_function]
    rw [hres]

/-- Witness for error propagation: an undefined identifier on the left
of an addition surfaces as the same undefined-identifier error. -/
theorem expression_error_propagation_witness :
    enforce_expression stEmpty "file" "main" []
        (.add (.identifier ⟨"y", ⟨4, 1⟩⟩) (.implicit "3" ⟨4, 5⟩) ⟨4, 3⟩) =
      (.error (.undefinedIdentifier "y"), stEmpty) := by
  have h := expression_error_propagation.1 BinaryOp.add stEmpty "file" "main" []
    (.identifier ⟨"y", ⟨4, 1⟩⟩) (.implicit "3" ⟨4, 5⟩) ⟨4, 3⟩
    (.undefinedIdentifier "y") stEmpty
    (by simp [enforce_expression_value, enforce_expression, BinaryOp.operand_types]; rfl)
  exact h

/-- Claim C2: the function-call resolver normalizes the callee's
outcome: a return aggregate with exactly one element unwraps to that
value directly; a body outcome that is not a return aggregate is a
NoReturnValue error; and a callee value that is not a function is a
NotCallable error raised by function extraction before the body is
invoked — the state is exactly the state after callee evaluation. -/
theorem function_call_normalization :
    (∀ (st : EvalState) (file_scope function_scope : String)
        (expected_types : List LeoType) (function : Expression)
        (arguments : List Expression) (span : Span) (declScope : Option String)
        (fd : FunctionDef) (st1 : EvalState) (v : ConstrainedValue),
      enforce_expression st file_scope function_scope expected_types function =
        (.ok (.functionValue declScope fd), st1) →
      fd.result = .ok (.ret [v]) →
      (enforce_function_call_expression st file_scope function_scope expected_types
          function arguments span).1 = .ok v) ∧
    (∀ (st : EvalState) (file_scope function_scope : String)
        (expected_types : List LeoType) (function : Expression)
        (arguments : List Expression) (span : Span) (declScope : Option String)
        (fd : FunctionDef) (st1 : EvalState) (w : ConstrainedValue),
      enforce_expression st file_scope function_scope expected_types function =
        (.ok (.functionValue declScope fd), st1) →
      fd.result = .ok w →
      w.isReturn = false →
      (enforce_function_call_expression st file_scope function_scope expected_types
          function arguments span).1 =
        .error (.functionNoReturn function.to_string span)) ∧
    (∀ (st : EvalState) (file_scope function_scope : String)
        (expected_types : List LeoType) (function : Expression)
        (arguments : List Expression) (span : Span) (cv : ConstrainedValue)
        (st1 : EvalState),
      enforce_expression st file_scope function_scope expected_types function =
        (.ok cv, st1) →
      cv.isFunction = false →
      enforce_function_call_expression st file_scope function_scope expected_types
          function arguments span = (.error (.notCallable span), st1)) := by
  refine ⟨?_, ?_, ?_⟩
  · intro st fs fn ets function arguments sp declScope fd st1 v h hres
    unfold enforce_function_call_expression
    rw [h]
    simp only [ConstrainedValue.extract_function, enforce_function]
    rw [hres]
  · intro st fs fn ets function arguments sp declScope fd st1 w h hres hw
    unfold enforce_function_call_expression
    rw [h]
    simp only [ConstrainedValue.extract_function, enforce_function]
    rw [hres]
    cases w <;> simp_all [ConstrainedValue.isReturn]
  · intro st fs fn ets function arguments sp cv st1 h hcv
    unfold enforce_function_call_expression
    rw [h]
    simp only [extract_function_not_callable cv fs sp hcv]

/-- The function used by the witnesses: `g` emits two constraint
variables and returns a one-element return aggregate. -/
def gFn : FunctionDef := .mk "g" ["v1", "v2"] [] (.ok (.ret [.boolean true]))

/-- The witness state binding `g` in the function scope. -/
def stFn : EvalState :=
  { identifiers := [("main_g", .functionValue none gFn)], nsPath := [], vars := [] }

/-- Witness for call normalization: calling `g`, whose body returns the
one-element aggregate `[true]`, yields the boolean directly. -/
theorem function_call_normalization_witness :
    (enforce_function_call_expression stFn "file" "main" []
        (.identifier ⟨"g", ⟨3, 1⟩⟩) [] ⟨3, 1⟩).1 = .ok (.boolean true) := by
  have h := function_call_normalization.1 stFn "file" "main" []
    (.identifier ⟨"g", ⟨3, 1⟩⟩) [] ⟨3, 1⟩ none gFn stFn (.boolean true)
    (by simp [enforce_expression]; rfl) rfl
  exact h

/-- Claim C6: the function-call resolver runs the body inside exactly
one fresh constraint-system namespace labelled with the callee's
display name and the call site's line and column — every variable the
body emits is recorded under the current path extended by that one
label, and the namespace is closed again afterwards — and the labels of
two calls to one function at two different source positions never
coincide, so their constraint variables never collide. -/
theorem function_call_namespace_unique :
    (∀ (st : EvalState) (file_scope function_scope : String)
        (expected_types : List LeoType) (function : Expression)
        (arguments : List Expression) (span : Span) (declScope : Option String)
        (fd : FunctionDef) (st1 : EvalState),
      enforce_expression st file_scope function_scope expected_types function =
        (.ok (.functionValue declScope fd), st1) →
      (enforce_function_call_expression st file_scope function_scope expected_types
          function arguments span).2 =
        { identifiers := st1.identifiers ++ fd.binds, nsPath := st1.nsPath,
          vars := st1.vars ++ fd.emits.map
            (fun v => (st1.nsPath ++ [name_unique fd.get_name span], v)) }) ∧
    (∀ (fname : String) (span1 span2 : Span),
      span1 ≠ span2 → name_unique fname span1 ≠ name_unique fname span2) := by
  constructor
  · intro st fs fn ets function arguments sp declScope fd st1 h
    unfold enforce_function_call_expression
    rw [h]
    simp only [ConstrainedValue.extract_function, enforce_function]
    rw [foldl_emit_vars]
    simp only [EvalState.pushNs]
    cases hres : fd.result with
    | error e => simp [EvalState.popNs]
    | ok v =>
      cases v <;> simp [EvalState.popNs]
      rename_i vs
      cases vs with
      | nil => simp [EvalState.popNs]
      | cons a tl => cases tl <;> simp [EvalState.popNs]
  · intro fname span1 span2 hne heq
    exact hne (name_unique_inj fname span1 span2 heq)

/-- Witness for namespace uniqueness: calling `g` at line 3, column 1
records the body's two variables under the single fresh namespace
"function call g 3:1", and the label at a different position differs. -/
theorem function_call_namespace_unique_witness :
    (enforce_function_call_expression stFn "file" "main" []
        (.identifier ⟨"g", ⟨3, 1⟩⟩) [] ⟨3, 1⟩).2 =
      { identifiers := stFn.identifiers ++ gFn.binds, nsPath := [],
        vars := [(["function call g 3:1"], "v1"), (["function call g 3:1"], "v2")] } ∧
    name_unique "g" ⟨3, 1⟩ ≠ name_unique "g" ⟨7, 4⟩ := by
  constructor
  · have h := function_call_namespace_unique.1 stFn "file" "main" []
      (.identifier ⟨"g", ⟨3, 1⟩⟩) [] ⟨3, 1⟩ none gFn stFn
      (by simp [enforce_expression]; rfl)
    rw [h]
    rfl
  · exact function_call_namespace_unique.2 "g" ⟨3, 1⟩ ⟨7, 4⟩ (by decide)
